import Mathlib

/-!
Shallow embedding of the fragment/query lifecycle manager and the columnar
scan pipeline of the Doris backend (`be/src/runtime/fragment_mgr.cpp`,
`be/src/vec/exec/format/parquet/vparquet_reader.cpp`,
`be/src/vec/exec/format/csv/csv_reader.cpp`), with theorems settling the
stated behavioural claims.
-/

namespace Doris

/-- Embedding of `doris::Status`: an OK value or a typed error with message.
Only the constructors exercised by the embedded code paths are modelled. -/
inductive Status where
  | ok : Status
  | internalError (msg : String) : Status
  | endOfFile (msg : String) : Status
  | invalidArgument (msg : String) : Status
  | cancelledErr (msg : String) : Status
  | rpcError (msg : String) : Status
deriving DecidableEq, Repr

/-- `Status::ok()` predicate. -/
def Status.is_ok : Status → Bool
  | .ok => true
  | _ => false

/-- Embedding of `PPlanFragmentCancelReason` (protobuf enum). -/
inductive CancelReason where
  | LIMIT_REACH : CancelReason
  | TIMEOUT : CancelReason
  | USER_CANCEL : CancelReason
  | INTERNAL_ERROR : CancelReason
deriving DecidableEq, Repr

/-- Embedding of thrift `TUniqueId` (128-bit id as hi/lo words). -/
structure TUniqueId where
  hi : Int
  lo : Int
deriving DecidableEq, Repr

/-! ### FragmentExecState::update_status (fragment_mgr.cpp lines 109-118)

```cpp
Status update_status(Status status) {
    std::lock_guard<std::mutex> l(_status_lock);
    if (!status.ok() && _exec_status.ok()) {
        _exec_status = status;
        ...
    }
    return _exec_status;
}
```
The lock serializes calls, so a call sequence is a fold over the stored
status; the function returns the stored status after the possible update. -/

/-- One `update_status` call: given the stored `_exec_status` and the incoming
status, returns (new stored status, returned status). -/
def update_status (stored incoming : Status) : Status × Status :=
  let stored1 := if ¬ incoming.is_ok ∧ stored.is_ok then incoming else stored
  (stored1, stored1)

/-- A sequence of `update_status` calls, returning the final stored status. -/
def run_updates (init : Status) (calls : List Status) : Status :=
  calls.foldl (fun s inc => (update_status s inc).1) init

/-! ### FragmentExecState::cancel (fragment_mgr.cpp lines 244-262)

```cpp
Status FragmentExecState::cancel(const PPlanFragmentCancelReason& reason, const std::string& msg) {
    if (!_cancelled) {
        std::lock_guard<std::mutex> l(_status_lock);
        if (reason == PPlanFragmentCancelReason::LIMIT_REACH) {
            _executor.set_is_report_on_cancel(false);
        }
        _executor.cancel(reason, msg);
        auto stream_load_ctx = ...->get(_query_id);
        if (stream_load_ctx != nullptr) { stream_load_ctx->pipe->cancel(...); }
        _cancelled = true;
    }
    return Status::OK();
}
```
-/

/-- The parts of a `FragmentExecState` that `cancel` touches: the `_cancelled`
flag, the executor's report-on-cancel flag, the reason/message passed to
`_executor.cancel`, and whether the stream-load pipe was cancelled. -/
structure CancelState where
  cancelled : Bool
  report_on_cancel : Bool
  executor_cancel : Option (CancelReason × String)
  pipe_cancelled : Bool
deriving DecidableEq, Repr

/-- One `FragmentExecState::cancel(reason, msg)` call.  `has_stream_load_ctx`
stands for the external lookup `new_load_stream_mgr()->get(_query_id)`
returning non-null. -/
def fragment_cancel (st : CancelState) (reason : CancelReason) (msg : String)
    (has_stream_load_ctx : Bool) : CancelState × Status :=
  if st.cancelled then (st, Status.ok)
  else
    ({ cancelled := true
       report_on_cancel :=
         if reason = CancelReason.LIMIT_REACH then false else st.report_on_cancel
       executor_cancel := some (reason, msg)
       pipe_cancelled := st.pipe_cancelled || has_stream_load_ctx },
     Status.ok)

/-! ### FragmentExecState::is_timeout and FragmentMgr::cancel_worker
(fragment_mgr.cpp lines 126-134 and 1005-1034)

```cpp
bool is_timeout(const vectorized::VecDateTimeValue& now) const {
    if (_timeout_second <= 0) { return false; }
    if (now.second_diff(_start_time) > _timeout_second) { return true; }
    return false;
}
```
Times are modelled as integer second counts; `now.second_diff(start)` is
`now - start`. -/

/-- `FragmentExecState::is_timeout(now)` over integer-second timestamps. -/
def is_timeout (timeout_second start_time now : Int) : Bool :=
  if timeout_second ≤ 0 then false
  else if now - start_time > timeout_second then true
  else false

/-- The fields of a live-fragment-map entry that the timeout sweep reads. -/
structure SweepEntry where
  fragment_instance_id : TUniqueId
  timeout_second : Int
  start_time : Int
deriving DecidableEq, Repr

/-- The selection pass of `FragmentMgr::cancel_worker`: under the lock it
collects every live fragment with `is_timeout(now)` into `to_cancel`, then
cancels each collected id with reason TIMEOUT. -/
def cancel_worker_sweep (fragment_map : List SweepEntry) (now : Int) :
    List (TUniqueId × CancelReason) :=
  (fragment_map.filter
      (fun e => is_timeout e.timeout_second e.start_time now)).map
    (fun e => (e.fragment_instance_id, CancelReason.TIMEOUT))

/-! ### FragmentMgr::_get_query_ctx memory-limit clamp (fragment_mgr.cpp lines 627-649)

```cpp
bool has_query_mem_tracker =
        params.query_options.__isset.mem_limit && (params.query_options.mem_limit > 0);
int64_t bytes_limit = has_query_mem_tracker ? params.query_options.mem_limit : -1;
if (bytes_limit > MemInfo::mem_limit()) {
    ... bytes_limit = MemInfo::mem_limit();
}
```
-/

/-- The effective memory-tracker byte limit computed when a new
`QueryFragmentsCtx` is built: `mem_limit_isset`/`mem_limit` are the request's
query options, `process_mem_limit` is `MemInfo::mem_limit()`. -/
def query_ctx_bytes_limit (mem_limit_isset : Bool) (mem_limit process_mem_limit : Int) : Int :=
  let has_query_mem_tracker := mem_limit_isset = true ∧ 0 < mem_limit
  let bytes_limit := if has_query_mem_tracker then mem_limit else -1
  if process_mem_limit < bytes_limit then process_mem_limit else bytes_limit

/-! ### FragmentMgr registry state, query_is_canceled and exec_plan_fragment
(fragment_mgr.cpp lines 698-706 and 986-1003)

The three maps (`_fragment_map`, `_pipeline_map`, `_fragments_ctx_map`) are
guarded by one mutex, so an RPC entry point is a sequential function of the
registry state.  Of a `FragmentExecState` / `PipelineFragmentContext` map
value, only the `is_canceled()` flag is read by the embedded paths, so map
values are that flag. -/

/-- The per-query shared context fields read by the embedded paths. -/
structure QueryFragmentsCtx where
  query_id : TUniqueId
  fragment_num_on_host : Int
  timeout_second : Int
  bytes_limit : Int
  fragment_ids : List TUniqueId
deriving DecidableEq, Repr

/-- Ordered-map lookup on an association list (embedding of `std::map::find`). -/
def alookup {β : Type} : List (TUniqueId × β) → TUniqueId → Option β
  | [], _ => none
  | (k, v) :: rest, key => if k = key then some v else alookup rest key

/-- Remove a key from an association list (embedding of `std::map::erase`). -/
def aerase {β : Type} : List (TUniqueId × β) → TUniqueId → List (TUniqueId × β)
  | [], _ => []
  | (k, v) :: rest, key => if k = key then aerase rest key else (k, v) :: aerase rest key

/-- Replace the value stored under a key in an association list. -/
def aupdate {β : Type} : List (TUniqueId × β) → TUniqueId → β → List (TUniqueId × β)
  | [], _, _ => []
  | (k, v) :: rest, key, nv =>
      if k = key then (k, nv) :: aupdate rest key nv else (k, v) :: aupdate rest key nv

/-- The registry maps of `FragmentMgr`, all guarded by `_lock`. -/
structure FragmentMgrState where
  fragment_map : List (TUniqueId × Bool)
  pipeline_map : List (TUniqueId × Bool)
  fragments_ctx_map : List (TUniqueId × QueryFragmentsCtx)
deriving DecidableEq, Repr

/-- The loop body of `FragmentMgr::query_is_canceled`: walk the context's
registered instance ids; the first id found in `_fragment_map` (checked
first) or `_pipeline_map` decides the answer by its `is_canceled()` flag;
if no id is found the function falls through to `return true`. -/
def query_is_canceled_loop (st : FragmentMgrState) : List TUniqueId → Bool
  | [] => true
  | id :: rest =>
    match alookup st.fragment_map id with
    | some c => c
    | none =>
      match alookup st.pipeline_map id with
      | some c => c
      | none => query_is_canceled_loop st rest

/-- `FragmentMgr::query_is_canceled(query_id)` (fragment_mgr.cpp 986-1003):
an unknown query context answers `true`. -/
def query_is_canceled (st : FragmentMgrState) (query_id : TUniqueId) : Bool :=
  match alookup st.fragments_ctx_map query_id with
  | none => true
  | some ctx => query_is_canceled_loop st ctx.fragment_ids

/-- Externally observable work steps of `exec_plan_fragment` past the
duplicate check. -/
inductive ExecEvent where
  | resolve_query_ctx : ExecEvent
  | build_exec_state : ExecEvent
  | submit_execution : ExecEvent
deriving DecidableEq, Repr

/-- The request fields of `TExecPlanFragmentParams` read by the embedded
submission path. -/
structure ExecPlanFragmentParams where
  query_id : TUniqueId
  fragment_instance_id : TUniqueId
  is_simplified_param : Bool
  fragment_num_on_host : Int
  timeout_second : Int
  mem_limit_isset : Bool
  mem_limit : Int
  need_wait_execution_trigger : Bool
  enable_pipeline_engine : Bool
deriving DecidableEq, Repr

/-- `FragmentMgr::_get_query_ctx` (fragment_mgr.cpp 588-686): a simplified
request looks up the existing context and fails with InternalError when it
is absent; otherwise a fresh context is built (with the clamped byte limit)
and inserted unless a context for the query id is already registered, in
which case the registered one wins. -/
def get_query_ctx (st : FragmentMgrState) (p : ExecPlanFragmentParams)
    (process_mem_limit : Int) : Except Status (QueryFragmentsCtx × FragmentMgrState) :=
  if p.is_simplified_param then
    match alookup st.fragments_ctx_map p.query_id with
    | none => Except.error (Status.internalError
        "Failed to get query fragments context. Query may be timeout or be cancelled.")
    | some ctx => Except.ok (ctx, st)
  else
    let fresh : QueryFragmentsCtx :=
      { query_id := p.query_id
        fragment_num_on_host := p.fragment_num_on_host
        timeout_second := p.timeout_second
        bytes_limit := query_ctx_bytes_limit p.mem_limit_isset p.mem_limit process_mem_limit
        fragment_ids := [] }
    match alookup st.fragments_ctx_map p.query_id with
    | none => Except.ok (fresh,
        { st with fragments_ctx_map := st.fragments_ctx_map ++ [(p.query_id, fresh)] })
    | some ctx => Except.ok (ctx, st)

/-- `FragmentMgr::exec_plan_fragment(params, cb)` (fragment_mgr.cpp 688-795):
the duplicate check against `_fragment_map` under the lock comes first and a
hit returns `Status::OK()` with no further work.  Otherwise the query context
is resolved, the instance id registered under it, a `FragmentExecState`
built and prepared, and the execution submitted; `prepare_ok` and
`submit_ok` stand for the outcomes of the external prepare and thread-pool /
pipeline submit calls. -/
def exec_plan_fragment (st : FragmentMgrState) (p : ExecPlanFragmentParams)
    (process_mem_limit : Int) (prepare_ok submit_ok : Bool) :
    Status × FragmentMgrState × List ExecEvent :=
  match alookup st.fragment_map p.fragment_instance_id with
  | some _ => (Status.ok, st, [])
  | none =>
    match get_query_ctx st p process_mem_limit with
    | Except.error e => (e, st, [ExecEvent.resolve_query_ctx])
    | Except.ok (ctx, st1) =>
      let ctx1 := { ctx with fragment_ids := ctx.fragment_ids ++ [p.fragment_instance_id] }
      let st2 := { st1 with fragments_ctx_map := aupdate st1.fragments_ctx_map ctx.query_id ctx1 }
      if p.enable_pipeline_engine = false then
        if prepare_ok = false then
          (Status.internalError "prepare failed", st2,
           [ExecEvent.resolve_query_ctx, ExecEvent.build_exec_state])
        else
          let st3 := { st2 with
            fragment_map := st2.fragment_map ++ [(p.fragment_instance_id, false)] }
          if submit_ok = false then
            (Status.internalError "push plan fragment to thread pool failed",
             { st3 with fragment_map := aerase st3.fragment_map p.fragment_instance_id },
             [ExecEvent.resolve_query_ctx, ExecEvent.build_exec_state])
          else
            (Status.ok, st3,
             [ExecEvent.resolve_query_ctx, ExecEvent.build_exec_state,
              ExecEvent.submit_execution])
      else
        if prepare_ok = false then
          (Status.internalError "prepare failed", st2,
           [ExecEvent.resolve_query_ctx, ExecEvent.build_exec_state])
        else
          let st3 := { st2 with
            pipeline_map := st2.pipeline_map ++ [(p.fragment_instance_id, false)] }
          ((if submit_ok then Status.ok else Status.internalError "pipeline submit failed"),
           st3,
           [ExecEvent.resolve_query_ctx, ExecEvent.build_exec_state,
            ExecEvent.submit_execution])

/-! ### CsvReader::init_reader split-file check (csv_reader.cpp lines 108-134) -/

/-- Embedding of the thrift `TFileFormatType` values distinguished by the
embedded CSV path. -/
inductive TFileFormatType where
  | FORMAT_CSV_PLAIN : TFileFormatType
  | FORMAT_CSV_GZ : TFileFormatType
  | FORMAT_CSV_BZ2 : TFileFormatType
  | FORMAT_CSV_LZ4FRAME : TFileFormatType
  | FORMAT_CSV_LZOP : TFileFormatType
  | FORMAT_CSV_DEFLATE : TFileFormatType
  | FORMAT_ORC : TFileFormatType
  | FORMAT_PARQUET : TFileFormatType
  | FORMAT_JSON : TFileFormatType
deriving DecidableEq, Repr

/-- Embedding of the thrift `TFileCompressType` values. -/
inductive TFileCompressType where
  | UNKNOWN : TFileCompressType
  | PLAIN : TFileCompressType
  | GZ : TFileCompressType
  | LZO : TFileCompressType
  | BZ2 : TFileCompressType
  | LZ4FRAME : TFileCompressType
  | DEFLATE : TFileCompressType
  | LZOP : TFileCompressType
deriving DecidableEq, Repr

/-- `BeConsts::CSV_WITH_NAMES`. -/
def CSV_WITH_NAMES : String := "csv_with_names"

/-- `BeConsts::CSV_WITH_NAMES_AND_TYPES`. -/
def CSV_WITH_NAMES_AND_TYPES : String := "csv_with_names_and_types"

/-- The CSV reader inputs read by the start-offset/skip-lines phase of
`CsvReader::init_reader`. -/
structure CsvReaderParams where
  format_type : TFileFormatType
  compress_type : TFileCompressType
  header_type_isset : Bool
  header_type : String
  skip_lines_isset : Bool
  skip_lines : Int
deriving DecidableEq, Repr

/-- The start-offset/skip-lines phase of `CsvReader::init_reader`
(csv_reader.cpp 108-134): returns the adjusted
`(start_offset, size, skip_lines)` or the split-compressed-file error. -/
def csv_init_reader_offset (p : CsvReaderParams) (start_offset size : Int) :
    Except Status (Int × Int × Int) :=
  if start_offset = 0 then
    let skip_lines : Int :=
      if p.header_type_isset = true ∧ 0 < p.header_type.length then
        (if p.header_type.toLower = CSV_WITH_NAMES then 1
         else if p.header_type.toLower = CSV_WITH_NAMES_AND_TYPES then 2
         else 0)
      else if p.skip_lines_isset then p.skip_lines else 0
    Except.ok (start_offset, size, skip_lines)
  else
    if p.format_type ≠ TFileFormatType.FORMAT_CSV_PLAIN ∨
        (p.compress_type ≠ TFileCompressType.UNKNOWN ∧
         p.compress_type ≠ TFileCompressType.PLAIN) then
      Except.error (Status.internalError "For now we do not support split compressed file")
    else
      Except.ok (start_offset - 1, size + 1, 1)

/-! ### FragmentMgr::coordinator_callback reporting protocol
(fragment_mgr.cpp lines 334-476)

```cpp
try {
    try {
        coord->reportExecStatus(res, params);
    } catch (TTransportException& e) {
        rpc_status = coord.reopen();
        if (!rpc_status.ok()) {
            req.update_fn(rpc_status);
            req.cancel_fn(PPlanFragmentCancelReason::INTERNAL_ERROR, "report rpc fail");
            return;
        }
        coord->reportExecStatus(res, params);
    }
    rpc_status = Status(res.status);
} catch (TException& e) {
    rpc_status = Status::InternalError(msg.str());
}
if (!rpc_status.ok()) {
    req.update_fn(rpc_status);
    req.cancel_fn(PPlanFragmentCancelReason::INTERNAL_ERROR, "rpc fail 2");
}
```
-/

/-- Outcome of one `reportExecStatus` RPC attempt: completed with the
coordinator's result status, threw `TTransportException`, or threw some
other `TException`. -/
inductive RpcOutcome where
  | success (coord_status : Status) : RpcOutcome
  | transport_error : RpcOutcome
  | other_error : RpcOutcome
deriving DecidableEq, Repr

/-- The externally observable behaviour of one `coordinator_callback` run:
how many `reportExecStatus` attempts were made, the statuses handed to
`req.update_fn`, and the `req.cancel_fn` invocation if any. -/
structure ReportOutcome where
  attempts : Nat
  update_calls : List Status
  cancel_call : Option (CancelReason × String)
deriving DecidableEq, Repr

/-- `FragmentMgr::coordinator_callback(req)`: `req_status` is the incoming
report status (always first merged via `req.update_fn`), `coord_ok` the
outcome of acquiring the frontend client, `attempt1`/`attempt2` the RPC
attempt outcomes, `reopen_status` the result of `coord.reopen()` (consulted
only after a first-attempt transport error). -/
def coordinator_callback (req_status : Status) (coord_ok : Bool)
    (attempt1 : RpcOutcome) (reopen_status : Status) (attempt2 : RpcOutcome) :
    ReportOutcome :=
  if coord_ok = false then
    { attempts := 0
      update_calls := [req_status, Status.internalError "could not get a client"]
      cancel_call := none }
  else
    match attempt1 with
    | RpcOutcome.success s =>
        if s.is_ok then { attempts := 1, update_calls := [req_status], cancel_call := none }
        else { attempts := 1, update_calls := [req_status, s],
               cancel_call := some (CancelReason.INTERNAL_ERROR, "rpc fail 2") }
    | RpcOutcome.other_error =>
        { attempts := 1
          update_calls := [req_status, Status.internalError "ReportExecStatus failed"]
          cancel_call := some (CancelReason.INTERNAL_ERROR, "rpc fail 2") }
    | RpcOutcome.transport_error =>
        if reopen_status.is_ok = false then
          { attempts := 1
            update_calls := [req_status, reopen_status]
            cancel_call := some (CancelReason.INTERNAL_ERROR, "report rpc fail") }
        else
          match attempt2 with
          | RpcOutcome.success s =>
              if s.is_ok then
                { attempts := 2, update_calls := [req_status], cancel_call := none }
              else
                { attempts := 2, update_calls := [req_status, s],
                  cancel_call := some (CancelReason.INTERNAL_ERROR, "rpc fail 2") }
          | _ =>
              { attempts := 2
                update_calls := [req_status, Status.internalError "ReportExecStatus failed"]
                cancel_call := some (CancelReason.INTERNAL_ERROR, "rpc fail 2") }

/-! ### ParquetReader::get_next_block (vparquet_reader.cpp lines 454-487)

The state read and written by `get_next_block`: whether
`_current_group_reader` is non-null, the `_row_group_eof` flag and the
length of the `_read_row_groups` queue.  The external calls
(`_next_row_group_reader`'s page-index/init work and the group reader's
`next_batch`) are oracles supplied as arguments. -/

/-- The `ParquetReader` fields driving `get_next_block`. -/
structure ParquetReaderState where
  has_current_group_reader : Bool
  row_group_eof : Bool
  read_row_groups : Nat
deriving DecidableEq, Repr

/-- What one `get_next_block` call returns and leaves behind. -/
structure GetNextBlockResult where
  status_ok : Bool
  read_rows : Nat
  eof : Bool
  state : ParquetReaderState
deriving DecidableEq, Repr

/-- The tail of `get_next_block` after a group reader is in place: delegate
to `next_batch` (oracle `batch_ok`/`batch_rows`/`batch_eof` writing
`_row_group_eof`), and report `eof` only when the group is exhausted and the
queue is empty. -/
def parquet_run_batch (batch_ok : Bool) (batch_rows : Nat) (batch_eof : Bool)
    (st : ParquetReaderState) : GetNextBlockResult :=
  if batch_ok = false then
    { status_ok := false, read_rows := batch_rows, eof := false
      state := { st with row_group_eof := batch_eof } }
  else
    let st2 : ParquetReaderState := { st with row_group_eof := batch_eof }
    if batch_eof ∧ st2.read_row_groups = 0 then
      { status_ok := true, read_rows := batch_rows, eof := true, state := st2 }
    else
      { status_ok := true, read_rows := batch_rows, eof := false, state := st2 }

/-- `ParquetReader::get_next_block`: when the current reader is absent or
exhausted, pull the next queued row group (oracle `next_reader_ok` for the
page-index/position-delete/init work) or, with an empty queue, reset the
reader and report EOF. -/
def parquet_get_next_block (st : ParquetReaderState) (next_reader_ok : Bool)
    (batch_ok : Bool) (batch_rows : Nat) (batch_eof : Bool) : GetNextBlockResult :=
  if st.has_current_group_reader = false ∨ st.row_group_eof = true then
    if 0 < st.read_row_groups then
      if next_reader_ok = false then
        { status_ok := false, read_rows := 0, eof := false
          state := { st with read_row_groups := st.read_row_groups - 1 } }
      else
        parquet_run_batch batch_ok batch_rows batch_eof
          { has_current_group_reader := true, row_group_eof := false
            read_row_groups := st.read_row_groups - 1 }
    else
      { status_ok := true, read_rows := 0, eof := true
        state := { has_current_group_reader := false, row_group_eof := true
                   read_row_groups := 0 } }
  else
    parquet_run_batch batch_ok batch_rows batch_eof st

/-! ### ParquetReader::_process_page_index (vparquet_reader.cpp lines 596-692)

The function collects per-column skipped row sub-ranges from the page index
(external `PageIndex` calls), unions them, sorts them by
`std::tie(first_row, last_row)`, and sweeps them with a running `skip_end`
watermark, emitting a candidate range whenever a new skip range starts after
the watermark, plus a final candidate up to `num_rows`:

```cpp
if (skipped_row_ranges.empty()) { read_whole_row_group(); return Status::OK(); }
std::sort(skipped_row_ranges.begin(), skipped_row_ranges.end(), ...tie(first,last)...);
int skip_end = 0;
for (auto& skip_range : skipped_row_ranges) {
    if (skip_end >= skip_range.first_row) {
        if (skip_end < skip_range.last_row) { skip_end = skip_range.last_row; }
    } else {
        candidate_row_ranges.emplace_back(skip_end, skip_range.first_row);
        skip_end = skip_range.last_row;
    }
}
if (skip_end != row_group.num_rows) {
    candidate_row_ranges.emplace_back(skip_end, row_group.num_rows);
}
```

`skip_end` is declared `int` while row indexes are `int64_t`; the embedding
uses unbounded `Int`, faithful whenever the row-group row count fits in 32
bits (hypothesis `N ≤ 2^31 - 1` in the theorem). -/

/-- A half-open row range `[first_row, last_row)`. -/
structure RowRange where
  first_row : Int
  last_row : Int
deriving DecidableEq, Repr

/-- The `std::sort` comparison `std::tie(lhs.first_row, lhs.last_row) <
std::tie(rhs.first_row, rhs.last_row)`, as a non-strict total order. -/
def rr_le (a b : RowRange) : Prop :=
  a.first_row < b.first_row ∨ (a.first_row = b.first_row ∧ a.last_row ≤ b.last_row)

instance : DecidableRel rr_le := fun a b => by
  unfold rr_le
  infer_instance

instance : IsTotal RowRange rr_le :=
  ⟨by intro a b; unfold rr_le; omega⟩

instance : IsTrans RowRange rr_le :=
  ⟨by intro a b c hab hbc; unfold rr_le at hab hbc ⊢; omega⟩

/-- Row `i` falls in one of the ranges of `l`. -/
def inRanges (l : List RowRange) (i : Int) : Prop :=
  ∃ r, r ∈ l ∧ r.first_row ≤ i ∧ i < r.last_row

instance (l : List RowRange) (i : Int) : Decidable (inRanges l i) := by
  unfold inRanges
  exact List.decidableBEx _ l

/-- The sweep loop over the sorted skip ranges: `acc` accumulates the
emitted candidate ranges, `skip_end` is the watermark; returns the emitted
candidates and the final watermark. -/
def processSkips : List RowRange → Int → List RowRange → (List RowRange × Int)
  | [], skip_end, acc => (acc, skip_end)
  | r :: rs, skip_end, acc =>
    if r.first_row ≤ skip_end then
      processSkips rs (if skip_end < r.last_row then r.last_row else skip_end) acc
    else
      processSkips rs r.last_row (acc ++ [⟨skip_end, r.first_row⟩])

/-- The candidate row ranges `_process_page_index` emits for a row group of
`num_rows` rows given the collected skipped row ranges: whole group when no
range was skipped, otherwise sort-and-sweep plus the final tail candidate. -/
def process_page_index_candidates (num_rows : Int)
    (skipped_row_ranges : List RowRange) : List RowRange :=
  if skipped_row_ranges.isEmpty then [⟨0, num_rows⟩]
  else
    let sorted := List.insertionSort rr_le skipped_row_ranges
    let p := processSkips sorted 0 []
    if p.2 ≠ num_rows then p.1 ++ [⟨p.2, num_rows⟩] else p.1

end Doris

namespace Doris

/-- Claim C4: the fragment execution status is sticky on first failure: a
non-OK status is only installed while the stored status is OK, a non-OK
stored status is never changed by any later sequence of calls, and
`update_status` returns the stored status after the possible update. -/
theorem update_status_sticky :
    (∀ s inc : Status, s.is_ok = false → (update_status s inc).1 = s)
    ∧ (∀ s inc : Status, (update_status s inc).1 ≠ s →
        s.is_ok = true ∧ (update_status s inc).1 = inc ∧ inc.is_ok = false)
    ∧ (∀ s inc : Status, (update_status s inc).2 = (update_status s inc).1)
    ∧ (∀ init : Status, ∀ calls : List Status, init.is_ok = false →
        run_updates init calls = init) := by
  refine ⟨?_, ?_, ?_, ?_⟩
  · intro s inc h
    simp [update_status, h]
  · intro s inc h
    by_cases hinc : inc.is_ok
    · exfalso; exact h (by simp [update_status, hinc])
    · by_cases hs : s.is_ok
      · refine ⟨hs, ?_, by simpa using hinc⟩
        simp [update_status, hinc, hs]
      · exfalso; exact h (by simp [update_status, hs])
  · intro s inc
    rfl
  · intro init calls h
    induction calls with
    | nil => rfl
    | cons c cs ih =>
        have hstep : (update_status init c).1 = init := by
          simp [update_status, h]
        simpa [run_updates, hstep] using ih

/-- Witness for C4 at concrete statuses: a stored InternalError survives an
incoming OK and a later incoming error. -/
theorem update_status_sticky_witness :
    (Status.internalError "boom").is_ok = false ∧
      run_updates (Status.internalError "boom")
        [Status.ok, Status.cancelledErr "late"] = Status.internalError "boom" := by
  refine ⟨by decide, ?_⟩
  exact update_status_sticky.2.2.2 (Status.internalError "boom")
    [Status.ok, Status.cancelledErr "late"] (by decide)

/-- Claim C6: cancellation is idempotent and monotonic: after a first
`cancel` the flag is set, and a second `cancel` with any reason and message
is a no-op returning OK and leaving the state exactly as after the first. -/
theorem fragment_cancel_idempotent :
    ∀ (st : CancelState) (r1 r2 : CancelReason) (m1 m2 : String) (p1 p2 : Bool),
      (fragment_cancel st r1 m1 p1).1.cancelled = true
      ∧ fragment_cancel (fragment_cancel st r1 m1 p1).1 r2 m2 p2 =
          ((fragment_cancel st r1 m1 p1).1, Status.ok) := by
  intro st r1 r2 m1 m2 p1 p2
  by_cases h : st.cancelled
  · constructor
    · simp [fragment_cancel, h]
    · simp [fragment_cancel, h]
  · constructor
    · simp [fragment_cancel, h]
    · simp [fragment_cancel, h]

/-- Claim C3: the timeout sweep selects `(id, TIMEOUT)` exactly for the live
fragments whose `timeout_second` is positive and for which the observed time
is strictly past `start_time + timeout_second`; a fragment with
`timeout_second ≤ 0` is never judged timed out. -/
theorem cancel_worker_timeout_iff :
    (∀ T t0 now : Int, T ≤ 0 → is_timeout T t0 now = false)
    ∧ (∀ T t0 now : Int, is_timeout T t0 now = true ↔ (0 < T ∧ t0 + T < now))
    ∧ (∀ (fm : List SweepEntry) (now : Int) (iid : TUniqueId) (r : CancelReason),
        (iid, r) ∈ cancel_worker_sweep fm now ↔
          (r = CancelReason.TIMEOUT ∧ ∃ e ∈ fm,
            e.fragment_instance_id = iid ∧ 0 < e.timeout_second ∧
              e.start_time + e.timeout_second < now)) := by
  have hiff : ∀ T t0 now : Int, is_timeout T t0 now = true ↔ (0 < T ∧ t0 + T < now) := by
    intro T t0 now
    unfold is_timeout
    split_ifs with h1 h2 <;> simp <;> omega
  refine ⟨?_, hiff, ?_⟩
  · intro T t0 now hT
    simp [is_timeout, hT]
  · intro fm now iid r
    unfold cancel_worker_sweep
    constructor
    · intro h
      rcases List.mem_map.1 h with ⟨e, he, heq⟩
      rcases List.mem_filter.1 he with ⟨hmem, htime⟩
      rcases (hiff e.timeout_second e.start_time now).1 htime with ⟨hpos, hlt⟩
      have h1 : e.fragment_instance_id = iid := congrArg Prod.fst heq
      have h2 : CancelReason.TIMEOUT = r := congrArg Prod.snd heq
      exact ⟨h2.symm, e, hmem, h1, hpos, hlt⟩
    · rintro ⟨hr, e, hmem, hid, hpos, hlt⟩
      refine List.mem_map.2 ⟨e, List.mem_filter.2 ⟨hmem, ?_⟩, ?_⟩
      · exact (hiff e.timeout_second e.start_time now).2 ⟨hpos, hlt⟩
      · rw [hid, hr]

/-- Witness for C3 at a concrete map: a fragment started at time 100 with a
60-second timeout is selected at time 161 but a zero-timeout fragment is not. -/
theorem cancel_worker_timeout_iff_witness :
    ((⟨1, 1⟩, CancelReason.TIMEOUT) ∈
        cancel_worker_sweep
          [⟨⟨1, 1⟩, 60, 100⟩, ⟨⟨1, 2⟩, 0, 100⟩] 161 ↔
      (CancelReason.TIMEOUT = CancelReason.TIMEOUT ∧
        ∃ e ∈ ([⟨⟨1, 1⟩, 60, 100⟩, ⟨⟨1, 2⟩, 0, 100⟩] : List SweepEntry),
          e.fragment_instance_id = ⟨1, 1⟩ ∧ 0 < e.timeout_second ∧
            e.start_time + e.timeout_second < 161)) ∧
    is_timeout 0 100 99999 = false := by
  constructor
  · exact cancel_worker_timeout_iff.2.2
      [⟨⟨1, 1⟩, 60, 100⟩, ⟨⟨1, 2⟩, 0, 100⟩] 161 ⟨1, 1⟩ CancelReason.TIMEOUT
  · exact cancel_worker_timeout_iff.1 0 100 99999 (by decide)

/-- Claim C7: with a non-negative process ceiling, a set positive request
above the ceiling is clamped to the ceiling, a set request within
(0, ceiling] is used unchanged, and an unset or non-positive request yields
the unlimited value -1. -/
theorem query_ctx_bytes_limit_clamp :
    ∀ (isset : Bool) (limit ceiling : Int), 0 ≤ ceiling →
      ((isset = true ∧ ceiling < limit) →
          query_ctx_bytes_limit isset limit ceiling = ceiling)
      ∧ ((isset = true ∧ 0 < limit ∧ limit ≤ ceiling) →
          query_ctx_bytes_limit isset limit ceiling = limit)
      ∧ ((isset = false ∨ limit ≤ 0) →
          query_ctx_bytes_limit isset limit ceiling = -1) := by
  intro isset limit ceiling hceil
  have he : query_ctx_bytes_limit isset limit ceiling =
      if ceiling < (if isset = true ∧ 0 < limit then limit else -1) then ceiling
      else (if isset = true ∧ 0 < limit then limit else -1) := rfl
  refine ⟨?_, ?_, ?_⟩
  · rintro ⟨hset, hgt⟩
    have hpos : 0 < limit := lt_of_le_of_lt hceil hgt
    have hc : isset = true ∧ 0 < limit := ⟨hset, hpos⟩
    rw [he, if_pos hc, if_pos hgt]
  · rintro ⟨hset, hpos, hle⟩
    have hc : isset = true ∧ 0 < limit := ⟨hset, hpos⟩
    rw [he, if_pos hc, if_neg (not_lt.2 hle)]
  · intro h
    have hneg : ¬ (isset = true ∧ 0 < limit) := by
      rcases h with h | h
      · rintro ⟨h1, _⟩; rw [h] at h1; exact Bool.false_ne_true h1
      · rintro ⟨_, h2⟩; omega
    rw [he, if_neg hneg, if_neg (by omega : ¬ ceiling < -1)]

/-- Witness for C7: a 10 GiB request under a 4 GiB process ceiling is clamped
to 4 GiB. -/
theorem query_ctx_bytes_limit_clamp_witness :
    (0 : Int) ≤ 4294967296 ∧
      query_ctx_bytes_limit true 10737418240 4294967296 = 4294967296 := by
  refine ⟨by decide, ?_⟩
  exact (query_ctx_bytes_limit_clamp true 10737418240 4294967296 (by decide)).1
    ⟨rfl, by decide⟩

/-- Claim C9: a CSV scan range with non-zero start offset over a compressed
file (format not plain CSV, or compress type neither UNKNOWN nor PLAIN)
makes `init_reader` fail with the split-compressed-file InternalError. -/
theorem csv_init_reader_split_compressed_error :
    ∀ (p : CsvReaderParams) (start_offset size : Int),
      start_offset ≠ 0 →
      (p.format_type ≠ TFileFormatType.FORMAT_CSV_PLAIN ∨
        (p.compress_type ≠ TFileCompressType.UNKNOWN ∧
         p.compress_type ≠ TFileCompressType.PLAIN)) →
      csv_init_reader_offset p start_offset size =
        Except.error (Status.internalError "For now we do not support split compressed file") := by
  intro p start_offset size hso hcond
  unfold csv_init_reader_offset
  rw [if_neg hso, if_pos hcond]

/-- Witness for C9: a gzip CSV with start offset 100 is rejected. -/
theorem csv_init_reader_split_compressed_error_witness :
    csv_init_reader_offset
        ⟨TFileFormatType.FORMAT_CSV_GZ, TFileCompressType.GZ, false, "", false, 0⟩ 100 1000 =
      Except.error (Status.internalError "For now we do not support split compressed file") :=
  csv_init_reader_split_compressed_error
    ⟨TFileFormatType.FORMAT_CSV_GZ, TFileCompressType.GZ, false, "", false, 0⟩ 100 1000
    (by decide) (by decide)

/-- A registry with one query whose first registered instance is live and not
cancelled while the second registered instance is cancelled. -/
def c5_ctx : QueryFragmentsCtx :=
  { query_id := ⟨1, 0⟩
    fragment_num_on_host := 2
    timeout_second := 3600
    bytes_limit := -1
    fragment_ids := [⟨1, 1⟩, ⟨1, 2⟩] }

/-- Concrete registry state used to settle the `query_is_canceled` claim. -/
def c5_state : FragmentMgrState :=
  { fragment_map := [(⟨1, 1⟩, false), (⟨1, 2⟩, true)]
    pipeline_map := []
    fragments_ctx_map := [(⟨1, 0⟩, c5_ctx)] }

/-- Counterexample to claim C5 as stated: in `c5_state` the second registered
fragment instance of query ⟨1,0⟩ reports cancelled, yet `query_is_canceled`
returns false, because it answers with the flag of the FIRST registered
instance found in the maps rather than an or over all instances. -/
theorem query_is_canceled_any_counterexample :
    query_is_canceled c5_state ⟨1, 0⟩ = false ∧
      (∃ id, id ∈ c5_ctx.fragment_ids ∧ alookup c5_state.fragment_map id = some true) := by
  constructor
  · rfl
  · exact ⟨⟨1, 2⟩, by decide, by decide⟩

theorem query_is_canceled_loop_eq_findSome (st : FragmentMgrState) :
    ∀ ids : List TUniqueId,
      query_is_canceled_loop st ids =
        (ids.findSome? (fun id =>
          (alookup st.fragment_map id).orElse (fun _ => alookup st.pipeline_map id))).getD true := by
  intro ids
  induction ids with
  | nil => rfl
  | cons id rest ih =>
      unfold query_is_canceled_loop
      rw [List.findSome?_cons]
      cases hf : alookup st.fragment_map id with
      | some c => simp [Option.orElse, hf]
      | none =>
        cases hp : alookup st.pipeline_map id with
        | some c => simp [Option.orElse, hf, hp]
        | none => simpa [Option.orElse, hf, hp] using ih

/-- Claim C5 (amended): `query_is_canceled` returns true when the query
context is unknown; for a known context it returns the `is_canceled` flag of
the first registered fragment instance found in the live-fragment map or,
failing that, the pipeline map (walking `fragment_ids` in registration
order), and returns true when no registered instance is found in either
map. -/
theorem query_is_canceled_first_found :
    ∀ (st : FragmentMgrState) (q : TUniqueId),
      (alookup st.fragments_ctx_map q = none → query_is_canceled st q = true)
      ∧ (∀ ctx : QueryFragmentsCtx, alookup st.fragments_ctx_map q = some ctx →
          query_is_canceled st q =
            (ctx.fragment_ids.findSome? (fun id =>
              (alookup st.fragment_map id).orElse
                (fun _ => alookup st.pipeline_map id))).getD true) := by
  intro st q
  constructor
  · intro h
    unfold query_is_canceled
    rw [h]
  · intro ctx h
    unfold query_is_canceled
    rw [h]
    exact query_is_canceled_loop_eq_findSome st ctx.fragment_ids

/-- Witness for the amended C5 at the concrete registry `c5_state`. -/
theorem query_is_canceled_first_found_witness :
    query_is_canceled c5_state ⟨1, 0⟩ =
      (c5_ctx.fragment_ids.findSome? (fun id =>
        (alookup c5_state.fragment_map id).orElse
          (fun _ => alookup c5_state.pipeline_map id))).getD true :=
  (query_is_canceled_first_found c5_state ⟨1, 0⟩).2 c5_ctx (by decide)

/-- Claim C1: a submission whose instance id is already registered in the
live-fragment map returns `Status::OK()` immediately: the registry state is
unchanged and no query-context resolution, exec-state construction or
execution submission happens, for every choice of the external outcomes. -/
theorem exec_plan_fragment_duplicate_noop :
    ∀ (st : FragmentMgrState) (p : ExecPlanFragmentParams) (pml : Int)
      (prepare_ok submit_ok : Bool),
      (∃ v, alookup st.fragment_map p.fragment_instance_id = some v) →
      exec_plan_fragment st p pml prepare_ok submit_ok = (Status.ok, st, []) := by
  rintro st p pml prepare_ok submit_ok ⟨v, hv⟩
  unfold exec_plan_fragment
  rw [hv]

/-- Concrete registry state already holding live instance ⟨1,1⟩. -/
def c1_state : FragmentMgrState :=
  { fragment_map := [(⟨1, 1⟩, false)]
    pipeline_map := []
    fragments_ctx_map :=
      [(⟨1, 0⟩, ⟨⟨1, 0⟩, 2, 3600, -1, [⟨1, 1⟩]⟩)] }

/-- Witness for C1: resubmitting instance ⟨1,1⟩ of query ⟨1,0⟩ to a registry
already holding it is a success no-op. -/
theorem exec_plan_fragment_duplicate_noop_witness :
    exec_plan_fragment c1_state
        ⟨⟨1, 0⟩, ⟨1, 1⟩, false, 2, 3600, false, -1, false, false⟩ 1000 true true =
      (Status.ok, c1_state, []) :=
  exec_plan_fragment_duplicate_noop c1_state
    ⟨⟨1, 0⟩, ⟨1, 1⟩, false, 2, 3600, false, -1, false, false⟩ 1000 true true
    ⟨false, by decide⟩

/-- Claim C8: in the reporting path, a first-attempt transport failure
triggers exactly one retry (two attempts happen exactly when the first
attempt hit a transport error and the reopen succeeded, and never more than
two attempts are made); a failed reopen, or a failed retried report, updates
the fragment status with the error and force-cancels with INTERNAL_ERROR;
a successful retry triggers no fragment-level cancellation. -/
theorem coordinator_callback_single_retry :
    ∀ (rs : Status) (a1 : RpcOutcome) (ro : Status) (a2 : RpcOutcome),
      ((coordinator_callback rs true a1 ro a2).attempts ≤ 2)
      ∧ ((coordinator_callback rs true a1 ro a2).attempts = 2 ↔
          (a1 = RpcOutcome.transport_error ∧ ro.is_ok = true))
      ∧ (a1 = RpcOutcome.transport_error → ro.is_ok = false →
          (coordinator_callback rs true a1 ro a2).cancel_call =
              some (CancelReason.INTERNAL_ERROR, "report rpc fail")
            ∧ ro ∈ (coordinator_callback rs true a1 ro a2).update_calls)
      ∧ (a1 = RpcOutcome.transport_error → ro.is_ok = true →
          ∀ s : Status, a2 = RpcOutcome.success s → s.is_ok = false →
            (coordinator_callback rs true a1 ro a2).cancel_call =
                some (CancelReason.INTERNAL_ERROR, "rpc fail 2")
              ∧ s ∈ (coordinator_callback rs true a1 ro a2).update_calls)
      ∧ (a1 = RpcOutcome.transport_error → ro.is_ok = true →
          (a2 = RpcOutcome.transport_error ∨ a2 = RpcOutcome.other_error) →
            (coordinator_callback rs true a1 ro a2).cancel_call =
              some (CancelReason.INTERNAL_ERROR, "rpc fail 2"))
      ∧ (a1 = RpcOutcome.transport_error → ro.is_ok = true →
          ∀ s : Status, a2 = RpcOutcome.success s → s.is_ok = true →
            (coordinator_callback rs true a1 ro a2).cancel_call = none) := by
  intro rs a1 ro a2
  refine ⟨?_, ?_, ?_, ?_, ?_, ?_⟩
  · cases a1 with
    | success s =>
        by_cases hs : s.is_ok <;> simp [coordinator_callback, hs]
    | transport_error =>
        by_cases hro : ro.is_ok
        · cases a2 with
          | success s =>
              by_cases hs : s.is_ok <;>
                simp [coordinator_callback, hro, hs]
          | transport_error => simp [coordinator_callback, hro]
          | other_error => simp [coordinator_callback, hro]
        · have hro2 : ro.is_ok = false := by simpa using hro
          simp [coordinator_callback, hro2]
    | other_error => simp [coordinator_callback]
  · cases a1 with
    | success s =>
        by_cases hs : s.is_ok <;> simp [coordinator_callback, hs]
    | transport_error =>
        by_cases hro : ro.is_ok
        · cases a2 with
          | success s =>
              by_cases hs : s.is_ok <;>
                simp [coordinator_callback, hro, hs]
          | transport_error => simp [coordinator_callback, hro]
          | other_error => simp [coordinator_callback, hro]
        · have hro2 : ro.is_ok = false := by simpa using hro
          simp [coordinator_callback, hro2]
    | other_error => simp [coordinator_callback]
  · intro h1 hro
    subst h1
    simp [coordinator_callback, hro]
  · intro h1 hro s h2 hs
    subst h1; subst h2
    simp [coordinator_callback, hro, hs]
  · intro h1 hro h2
    subst h1
    rcases h2 with h2 | h2 <;> subst h2 <;> simp [coordinator_callback, hro]
  · intro h1 hro s h2 hs
    subst h1; subst h2
    simp [coordinator_callback, hro, hs]

/-- Witness for C8, scenario E: a transport error on the first attempt, a
successful reopen and a successful second attempt make two attempts and no
cancellation. -/
theorem coordinator_callback_single_retry_witness :
    (coordinator_callback Status.ok true RpcOutcome.transport_error Status.ok
        (RpcOutcome.success Status.ok)).cancel_call = none :=
  (coordinator_callback_single_retry Status.ok RpcOutcome.transport_error
      Status.ok (RpcOutcome.success Status.ok)).2.2.2.2.2
    rfl rfl Status.ok rfl rfl

/-- The EOF situation of the parquet reader: the current row-group reader is
absent or exhausted and the pending row-group queue is empty. -/
def ParquetReaderState.at_eof_situation (st : ParquetReaderState) : Prop :=
  (st.has_current_group_reader = false ∨ st.row_group_eof = true) ∧
    st.read_row_groups = 0

theorem parquet_run_batch_eof_situation (bo be : Bool) (br : Nat)
    (st1 : ParquetReaderState) :
    (parquet_run_batch bo br be st1).eof = true →
      (parquet_run_batch bo br be st1).state.at_eof_situation := by
  intro h
  unfold parquet_run_batch at h ⊢
  by_cases hbo : bo = false
  · rw [if_pos hbo] at h
    exact absurd h (by simp)
  · rw [if_neg hbo] at h ⊢
    by_cases hcond : be = true ∧ st1.read_row_groups = 0
    · rw [if_pos hcond] at h ⊢
      exact ⟨Or.inr hcond.1, hcond.2⟩
    · rw [if_neg hcond] at h
      exact absurd h (by simp)

/-- Claim C10: `get_next_block`'s EOF state is terminal and absorbing: a
call entered with the current row-group reader absent or exhausted and an
empty pending queue returns OK, zero rows and `eof = true` with the reader
reset; every later call from the resulting state returns the same result;
and `eof = true` is only produced when the resulting state has the reader
absent or exhausted and the queue empty. -/
theorem parquet_get_next_block_eof_terminal :
    ∀ (st : ParquetReaderState) (nr bo be : Bool) (br : Nat),
      ((st.has_current_group_reader = false ∨ st.row_group_eof = true) →
        st.read_row_groups = 0 →
        parquet_get_next_block st nr bo br be =
          { status_ok := true, read_rows := 0, eof := true
            state := { has_current_group_reader := false, row_group_eof := true
                       read_row_groups := 0 } })
      ∧ ((parquet_get_next_block st nr bo br be).eof = true →
          (parquet_get_next_block st nr bo br be).state.at_eof_situation)
      ∧ (∀ (nr2 bo2 be2 : Bool) (br2 : Nat),
          parquet_get_next_block
              { has_current_group_reader := false, row_group_eof := true
                read_row_groups := 0 } nr2 bo2 br2 be2 =
            { status_ok := true, read_rows := 0, eof := true
              state := { has_current_group_reader := false, row_group_eof := true
                         read_row_groups := 0 } }) := by
  intro st nr bo be br
  refine ⟨?_, ?_, ?_⟩
  · intro h1 h2
    unfold parquet_get_next_block
    rw [if_pos h1, if_neg (by omega : ¬ 0 < st.read_row_groups)]
  · intro h
    unfold parquet_get_next_block at h ⊢
    by_cases hc : st.has_current_group_reader = false ∨ st.row_group_eof = true
    · rw [if_pos hc] at h ⊢
      by_cases hq : 0 < st.read_row_groups
      · rw [if_pos hq] at h ⊢
        by_cases hnr : nr = false
        · rw [if_pos hnr] at h
          exact absurd h (by simp)
        · rw [if_neg hnr] at h ⊢
          exact parquet_run_batch_eof_situation bo be br _ h
      · rw [if_neg hq] at h ⊢
        exact ⟨Or.inl rfl, rfl⟩
    · rw [if_neg hc] at h ⊢
      exact parquet_run_batch_eof_situation bo be br st h
  · intro nr2 bo2 be2 br2
    rfl

/-- Witness for C10 at the concrete EOF state. -/
theorem parquet_get_next_block_eof_terminal_witness :
    parquet_get_next_block
        { has_current_group_reader := false, row_group_eof := true
          read_row_groups := 0 } true true 5 true =
      { status_ok := true, read_rows := 0, eof := true
        state := { has_current_group_reader := false, row_group_eof := true
                   read_row_groups := 0 } } :=
  (parquet_get_next_block_eof_terminal
      { has_current_group_reader := false, row_group_eof := true
        read_row_groups := 0 } true true true 5).1 (Or.inl rfl) rfl

theorem inRanges_nil (i : Int) : ¬ inRanges [] i := by
  rintro ⟨r, hr, _⟩
  cases hr

theorem inRanges_cons (r : RowRange) (l : List RowRange) (i : Int) :
    inRanges (r :: l) i ↔ ((r.first_row ≤ i ∧ i < r.last_row) ∨ inRanges l i) := by
  unfold inRanges
  constructor
  · rintro ⟨b, hb, h1, h2⟩
    rcases List.mem_cons.1 hb with hb | hb
    · subst hb; exact Or.inl ⟨h1, h2⟩
    · exact Or.inr ⟨b, hb, h1, h2⟩
  · rintro (⟨h1, h2⟩ | ⟨b, hb, h1, h2⟩)
    · exact ⟨r, List.mem_cons_self r l, h1, h2⟩
    · exact ⟨b, List.mem_cons_of_mem r hb, h1, h2⟩

theorem inRanges_append (l1 l2 : List RowRange) (i : Int) :
    inRanges (l1 ++ l2) i ↔ (inRanges l1 i ∨ inRanges l2 i) := by
  unfold inRanges
  constructor
  · rintro ⟨b, hb, h⟩
    rcases List.mem_append.1 hb with hb | hb
    · exact Or.inl ⟨b, hb, h⟩
    · exact Or.inr ⟨b, hb, h⟩
  · rintro (⟨b, hb, h⟩ | ⟨b, hb, h⟩)
    · exact ⟨b, List.mem_append_left _ hb, h⟩
    · exact ⟨b, List.mem_append_right _ hb, h⟩

theorem inRanges_singleton (r : RowRange) (i : Int) :
    inRanges [r] i ↔ (r.first_row ≤ i ∧ i < r.last_row) := by
  rw [inRanges_cons]
  exact or_iff_left (inRanges_nil i)

theorem inRanges_perm {l1 l2 : List RowRange} (h : l1.Perm l2) (i : Int) :
    inRanges l1 i ↔ inRanges l2 i := by
  unfold inRanges
  constructor <;> rintro ⟨b, hb, hh⟩
  · exact ⟨b, h.mem_iff.1 hb, hh⟩
  · exact ⟨b, h.mem_iff.2 hb, hh⟩

theorem processSkips_cons_merge (r : RowRange) (rs : List RowRange)
    (skip_end : Int) (acc : List RowRange) (h : r.first_row ≤ skip_end) :
    processSkips (r :: rs) skip_end acc =
      processSkips rs (if skip_end < r.last_row then r.last_row else skip_end) acc := by
  simp only [processSkips]
  rw [if_pos h]

theorem processSkips_cons_emit (r : RowRange) (rs : List RowRange)
    (skip_end : Int) (acc : List RowRange) (h : ¬ r.first_row ≤ skip_end) :
    processSkips (r :: rs) skip_end acc =
      processSkips rs r.last_row (acc ++ [⟨skip_end, r.first_row⟩]) := by
  simp only [processSkips]
  rw [if_neg h]

/-- The sweep invariant: over skip ranges sorted by start and with
`first_row ≤ last_row`, the final watermark dominates the initial one and
every skip range, and a row is in the emitted candidates exactly when it was
in `acc` already or lies in `[skip_end, final watermark)` outside every skip
range. -/
theorem processSkips_spec (ss : List RowRange) :
    ∀ (skip_end : Int) (acc : List RowRange),
      List.Pairwise (fun a b : RowRange => a.first_row ≤ b.first_row) ss →
      (∀ r ∈ ss, r.first_row ≤ r.last_row) →
      skip_end ≤ (processSkips ss skip_end acc).2
      ∧ (∀ r ∈ ss, r.last_row ≤ (processSkips ss skip_end acc).2)
      ∧ (∀ i : Int, inRanges (processSkips ss skip_end acc).1 i ↔
          (inRanges acc i ∨
            (skip_end ≤ i ∧ i < (processSkips ss skip_end acc).2 ∧
              ¬ inRanges ss i))) := by
  induction ss with
  | nil =>
      intro skip_end acc _ _
      refine ⟨le_refl _, ?_, ?_⟩
      · intro r hr; cases hr
      · intro i
        constructor
        · intro h; exact Or.inl h
        · rintro (h | ⟨h1, h2, _⟩)
          · exact h
          · exact absurd h2 (by simp only [processSkips]; omega)
  | cons r rs ih =>
      intro skip_end acc hpair hvalid
      have hfirst : ∀ b ∈ rs, r.first_row ≤ b.first_row :=
        (List.pairwise_cons.1 hpair).1
      have hpair_rs := (List.pairwise_cons.1 hpair).2
      have hvalid_rs : ∀ b ∈ rs, b.first_row ≤ b.last_row :=
        fun b hb => hvalid b (List.mem_cons_of_mem r hb)
      have hr_valid : r.first_row ≤ r.last_row := hvalid r (List.mem_cons_self r rs)
      by_cases hc : r.first_row ≤ skip_end
      · have hstep := processSkips_cons_merge r rs skip_end acc hc
        set se2 : Int := if skip_end < r.last_row then r.last_row else skip_end
          with hse2def
        have hse2_ge_se : skip_end ≤ se2 := by rw [hse2def]; split <;> omega
        have hse2_ge_last : r.last_row ≤ se2 := by rw [hse2def]; split <;> omega
        obtain ⟨ih1, ih2, ih3⟩ := ih se2 acc hpair_rs hvalid_rs
        rw [hstep]
        refine ⟨le_trans hse2_ge_se ih1, ?_, ?_⟩
        · intro b hb
          rcases List.mem_cons.1 hb with hb | hb
          · subst hb; exact le_trans hse2_ge_last ih1
          · exact ih2 b hb
        · intro i
          rw [ih3 i, inRanges_cons]
          constructor
          · rintro (h | ⟨h1, h2, h3⟩)
            · exact Or.inl h
            · refine Or.inr ⟨le_trans hse2_ge_se h1, h2, ?_⟩
              rintro (⟨ha, hb⟩ | hmem)
              · omega
              · exact h3 hmem
          · rintro (h | ⟨h1, h2, h3⟩)
            · exact Or.inl h
            · have h3r : ¬ (r.first_row ≤ i ∧ i < r.last_row) :=
                fun hx => h3 (Or.inl hx)
              have h3rs : ¬ inRanges rs i := fun hx => h3 (Or.inr hx)
              refine Or.inr ⟨?_, h2, h3rs⟩
              have hri : r.last_row ≤ i := by
                by_contra hlt
                exact h3r ⟨le_trans hc h1, by omega⟩
              rw [hse2def]; split <;> omega
      · have hlt : skip_end < r.first_row := by omega
        have hstep := processSkips_cons_emit r rs skip_end acc hc
        obtain ⟨ih1, ih2, ih3⟩ :=
          ih r.last_row (acc ++ [⟨skip_end, r.first_row⟩]) hpair_rs hvalid_rs
        rw [hstep]
        refine ⟨by omega, ?_, ?_⟩
        · intro b hb
          rcases List.mem_cons.1 hb with hb | hb
          · subst hb; exact ih1
          · exact ih2 b hb
        · intro i
          rw [ih3 i, inRanges_append, inRanges_singleton, inRanges_cons]
          dsimp only
          constructor
          · rintro ((h | ⟨h1, h2⟩) | ⟨h1, h2, h3⟩)
            · exact Or.inl h
            · refine Or.inr ⟨h1, by omega, ?_⟩
              rintro (⟨ha, _⟩ | hmem)
              · omega
              · rcases hmem with ⟨b, hb, hb1, hb2⟩
                have := hfirst b hb
                omega
            · refine Or.inr ⟨by omega, h2, ?_⟩
              rintro (⟨_, hb⟩ | hmem)
              · omega
              · exact h3 hmem
          · rintro (h | ⟨h1, h2, h3⟩)
            · exact Or.inl (Or.inl h)
            · have h3r : ¬ (r.first_row ≤ i ∧ i < r.last_row) :=
                fun hx => h3 (Or.inl hx)
              have h3rs : ¬ inRanges rs i := fun hx => h3 (Or.inr hx)
              by_cases hi : i < r.first_row
              · exact Or.inl (Or.inr ⟨h1, hi⟩)
              · have hri : r.last_row ≤ i := by
                  by_contra hlt2
                  exact h3r ⟨by omega, by omega⟩
                exact Or.inr ⟨hri, h2, h3rs⟩

/-- The final watermark never exceeds an upper bound dominating the initial
watermark and every skip range end. -/
theorem processSkips_le (ss : List RowRange) :
    ∀ (skip_end : Int) (acc : List RowRange) (N : Int),
      skip_end ≤ N → (∀ r ∈ ss, r.last_row ≤ N) →
      (processSkips ss skip_end acc).2 ≤ N := by
  induction ss with
  | nil => intro skip_end acc N h _; exact h
  | cons r rs ih =>
      intro skip_end acc N h hb
      have hrN : r.last_row ≤ N := hb r (List.mem_cons_self r rs)
      have hbs : ∀ b ∈ rs, b.last_row ≤ N :=
        fun b hbm => hb b (List.mem_cons_of_mem r hbm)
      by_cases hc : r.first_row ≤ skip_end
      · rw [processSkips_cons_merge r rs skip_end acc hc]
        exact ih _ acc N (by split <;> omega) hbs
      · rw [processSkips_cons_emit r rs skip_end acc hc]
        exact ih r.last_row _ N hrN hbs

/-- Emitted candidates are an ordered disjoint chain ending at or before the
final watermark. -/
theorem processSkips_chain (ss : List RowRange) :
    ∀ (skip_end : Int) (acc : List RowRange),
      (∀ r ∈ ss, r.first_row ≤ r.last_row) →
      (∀ c ∈ acc, c.last_row ≤ skip_end) →
      List.Pairwise (fun a b : RowRange => a.last_row ≤ b.first_row) acc →
      (∀ c ∈ (processSkips ss skip_end acc).1,
          c.last_row ≤ (processSkips ss skip_end acc).2)
      ∧ List.Pairwise (fun a b : RowRange => a.last_row ≤ b.first_row)
          (processSkips ss skip_end acc).1 := by
  induction ss with
  | nil => intro skip_end acc _ hacc hpair; exact ⟨hacc, hpair⟩
  | cons r rs ih =>
      intro skip_end acc hvalid hacc hpair
      have hvalid_rs : ∀ b ∈ rs, b.first_row ≤ b.last_row :=
        fun b hb => hvalid b (List.mem_cons_of_mem r hb)
      have hr_valid : r.first_row ≤ r.last_row := hvalid r (List.mem_cons_self r rs)
      by_cases hc : r.first_row ≤ skip_end
      · rw [processSkips_cons_merge r rs skip_end acc hc]
        refine ih _ acc hvalid_rs ?_ hpair
        intro c hcm
        have := hacc c hcm
        split <;> omega
      · rw [processSkips_cons_emit r rs skip_end acc hc]
        refine ih r.last_row _ hvalid_rs ?_ ?_
        · intro c hcm
          rcases List.mem_append.1 hcm with hcm | hcm
          · have := hacc c hcm; omega
          · have hc2 := List.mem_singleton.1 hcm
            subst hc2
            exact hr_valid
        · refine List.pairwise_append.2 ⟨hpair, by simp, ?_⟩
          intro a ha b hbm
          have hb2 := List.mem_singleton.1 hbm
          subst hb2
          exact hacc a ha

theorem process_page_index_candidates_eq (N : Int) (skipped : List RowRange)
    (h : skipped.isEmpty = false) :
    process_page_index_candidates N skipped =
      (if (processSkips (List.insertionSort rr_le skipped) 0 []).2 ≠ N
       then (processSkips (List.insertionSort rr_le skipped) 0 []).1 ++
         [⟨(processSkips (List.insertionSort rr_le skipped) 0 []).2, N⟩]
       else (processSkips (List.insertionSort rr_le skipped) 0 []).1) := by
  unfold process_page_index_candidates
  rw [h, if_neg (by simp : ¬ false = true)]

/-- Claim C2: for a row group of `N` rows and collected skip ranges lying
inside `[0, N)` (start before end, both within bounds), the candidate ranges
emitted by `_process_page_index` complement the skip set exactly: a row of
`[0, N)` is in a candidate range iff it is in no skip range (so candidates
and skips cover `[0, N)` with no overlap), the candidates are an ordered
pairwise-disjoint chain, and an empty skip set yields the single candidate
`[0, N)`.  The `N ≤ 2^31 - 1` bound keeps the unbounded-integer embedding
faithful to the C++ `int` watermark. -/
theorem process_page_index_partition :
    ∀ (N : Int) (skipped : List RowRange),
      0 ≤ N → N ≤ 2147483647 →
      (∀ r ∈ skipped, 0 ≤ r.first_row ∧ r.first_row ≤ r.last_row ∧ r.last_row ≤ N) →
      (∀ i : Int, 0 ≤ i → i < N →
          (inRanges (process_page_index_candidates N skipped) i ↔
            ¬ inRanges skipped i))
      ∧ List.Pairwise (fun a b : RowRange => a.last_row ≤ b.first_row)
          (process_page_index_candidates N skipped)
      ∧ (skipped = [] → process_page_index_candidates N skipped = [⟨0, N⟩]) := by
  intro N skipped hN hN32 hvalid
  by_cases hemp : skipped.isEmpty
  · have hnil : skipped = [] := List.isEmpty_iff.1 hemp
    subst hnil
    refine ⟨?_, ?_, fun _ => rfl⟩
    · intro i h0 hiN
      have hpc : process_page_index_candidates N [] = [⟨0, N⟩] := rfl
      rw [hpc, inRanges_singleton]
      constructor
      · intro _; exact inRanges_nil i
      · intro _; exact ⟨h0, hiN⟩
    · have hpc : process_page_index_candidates N [] = [⟨0, N⟩] := rfl
      rw [hpc]
      simp
  · have hempf : skipped.isEmpty = false := by simpa using hemp
    have hne : skipped ≠ [] := by
      intro h; rw [h] at hempf; simp at hempf
    have heq := process_page_index_candidates_eq N skipped hempf
    have hperm : (List.insertionSort rr_le skipped).Perm skipped :=
      List.perm_insertionSort rr_le skipped
    have hsort : List.Pairwise rr_le (List.insertionSort rr_le skipped) :=
      List.sorted_insertionSort rr_le skipped
    have hpairfirst :
        List.Pairwise (fun a b : RowRange => a.first_row ≤ b.first_row)
          (List.insertionSort rr_le skipped) :=
      hsort.imp (fun hab => by unfold rr_le at hab; omega)
    have hvalid_sorted : ∀ r ∈ List.insertionSort rr_le skipped,
        0 ≤ r.first_row ∧ r.first_row ≤ r.last_row ∧ r.last_row ≤ N :=
      fun r hr => hvalid r (hperm.subset hr)
    have hfl : ∀ r ∈ List.insertionSort rr_le skipped, r.first_row ≤ r.last_row :=
      fun r hr => (hvalid_sorted r hr).2.1
    obtain ⟨hs1, hs2, hs3⟩ :=
      processSkips_spec (List.insertionSort rr_le skipped) 0 [] hpairfirst hfl
    have hFle : (processSkips (List.insertionSort rr_le skipped) 0 []).2 ≤ N :=
      processSkips_le (List.insertionSort rr_le skipped) 0 [] N hN
        (fun r hr => (hvalid_sorted r hr).2.2)
    obtain ⟨hc1, hc2⟩ :=
      processSkips_chain (List.insertionSort rr_le skipped) 0 [] hfl
        (fun c hc => absurd hc (List.not_mem_nil c)) List.Pairwise.nil
    by_cases hF : (processSkips (List.insertionSort rr_le skipped) 0 []).2 ≠ N
    · rw [if_pos hF] at heq
      refine ⟨?_, ?_, fun h => absurd h hne⟩
      · intro i h0 hiN
        have hperm_i := inRanges_perm hperm i
        rw [heq, inRanges_append, inRanges_singleton, hs3 i]
        dsimp only
        constructor
        · rintro ((hacc | ⟨h1, h2, h3⟩) | ⟨h1, h2⟩)
          · exact absurd hacc (inRanges_nil i)
          · exact fun hx => h3 (hperm_i.2 hx)
          · intro hx
            rcases hperm_i.2 hx with ⟨b, hb, hb1, hb2⟩
            have hbF := hs2 b hb
            omega
        · intro hnx
          have hnsorted : ¬ inRanges (List.insertionSort rr_le skipped) i :=
            fun hx => hnx (hperm_i.1 hx)
          by_cases hi : i < (processSkips (List.insertionSort rr_le skipped) 0 []).2
          · exact Or.inl (Or.inr ⟨h0, hi, hnsorted⟩)
          · exact Or.inr ⟨by omega, hiN⟩
      · rw [heq]
        refine List.pairwise_append.2 ⟨hc2, by simp, ?_⟩
        intro a ha b hbm
        have hb2 := List.mem_singleton.1 hbm
        subst hb2
        exact hc1 a ha
    · rw [if_neg hF] at heq
      have hFN : (processSkips (List.insertionSort rr_le skipped) 0 []).2 = N :=
        not_ne_iff.1 hF
      refine ⟨?_, by rw [heq]; exact hc2, fun h => absurd h hne⟩
      · intro i h0 hiN
        have hperm_i := inRanges_perm hperm i
        rw [heq, hs3 i]
        constructor
        · rintro (hacc | ⟨h1, h2, h3⟩)
          · exact absurd hacc (inRanges_nil i)
          · exact fun hx => h3 (hperm_i.2 hx)
        · intro hnx
          exact Or.inr ⟨h0, by omega, fun hx => hnx (hperm_i.1 hx)⟩

/-- Witness for C2: a 10-row group with skip ranges [2,4) and [7,9). -/
theorem process_page_index_partition_witness :
    (∀ i : Int, 0 ≤ i → i < 10 →
        (inRanges (process_page_index_candidates 10 [⟨2, 4⟩, ⟨7, 9⟩]) i ↔
          ¬ inRanges [⟨2, 4⟩, ⟨7, 9⟩] i))
    ∧ List.Pairwise (fun a b : RowRange => a.last_row ≤ b.first_row)
        (process_page_index_candidates 10 [⟨2, 4⟩, ⟨7, 9⟩])
    ∧ (([⟨2, 4⟩, ⟨7, 9⟩] : List RowRange) = [] →
        process_page_index_candidates 10 [⟨2, 4⟩, ⟨7, 9⟩] = [⟨0, 10⟩]) :=
  process_page_index_partition 10 [⟨2, 4⟩, ⟨7, 9⟩] (by decide) (by decide) (by decide)

end Doris
